import Mathlib

/-!
Shallow embedding of the `division-overtime` repository
(`src/notification_utils.py`, `src/division_compare_overtime.py`)
and proofs about its notification-decision, dedup-marker and
report-delivery logic.

Conventions of the embedding:

* A dedup marker (a `.flag` file) is a `Flag` record.  Its filename
  components (`employee_code`, ISO `year`, ISO `week`, `threshold`) come
  from `get_flag_path`; its `content` is the result of parsing the stored
  date string with `strptime("%Y-%m-%d")` followed by `isocalendar()`:
  `some (y, w)` is the ISO (year, week) of a parseable stored date, and
  `none` is an unparseable (corrupt) content, for which `strptime` raises
  `ValueError` in the Python code.
* "Today" is the ISO pair `now = (year, week)` that
  `datetime.today().isocalendar()` returns in the Python code.
* Python `int` is `Int`; `sorted` is a stable sort by `≤`.
-/

namespace DivisionOvertime

/-- A dedup-marker file in `notified_flags/`:
filename `{employee_code}_{year}_{week}_{threshold}.flag` (from
`get_flag_path`), plus the parse outcome of its stored date content. -/
structure Flag where
  code : String
  year : Nat
  week : Nat
  threshold : Int
  content : Option (Nat × Nat)
  deriving DecidableEq, Repr

/-- `NOTIFY_THRESHOLDS = [60, 70, 80, 90, 100]` (notification_utils.py line 10). -/
def NOTIFY_THRESHOLDS : List Int := [60, 70, 80, 90, 100]

/-- `DEPT_NOTIFY_FORCE_THRESHOLD = 95` (notification_utils.py line 11). -/
def DEPT_NOTIFY_FORCE_THRESHOLD : Int := 95

/-- `already_notified_this_week(employee_code, threshold)`: the flag file for
`(employee_code, current year, current week, threshold)` exists.
`flags` is the current contents of the `notified_flags` directory and
`now` the current ISO `(year, week)`. -/
def already_notified_this_week (flags : List Flag) (now : Nat × Nat)
    (employee_code : String) (threshold : Int) : Bool :=
  flags.any (fun fl =>
    fl.code == employee_code && fl.year == now.1 && fl.week == now.2 &&
      fl.threshold == threshold)

/-- `set_notified_flag_today(employee_code, threshold)`: opening the flag path
with mode `"w"` replaces any file already at that path; the written content is
today's date, whose ISO calendar pair is `now`. -/
def set_notified_flag_today (flags : List Flag) (now : Nat × Nat)
    (employee_code : String) (threshold : Int) : List Flag :=
  (flags.filter (fun fl =>
    !(fl.code == employee_code && fl.year == now.1 && fl.week == now.2 &&
      fl.threshold == threshold))) ++
    [⟨employee_code, now.1, now.2, threshold, some now⟩]

/-- `cleanup_old_flags()` (notification_utils.py lines 30-51): for each flag,
parse the stored date; on `ValueError` log a warning and `continue` (the file
is kept); otherwise delete the file iff its ISO year differs from the current
year or its ISO week differs from the current week. -/
def cleanup_old_flags (flags : List Flag) (now : Nat × Nat) : List Flag :=
  flags.filter (fun fl =>
    match fl.content with
    | none => true
    | some (y, w) => y == now.1 && w == now.2)

/-- The `for threshold in sorted(NOTIFY_THRESHOLDS)` loop body of
`should_notify` (notification_utils.py lines 58-63), over the remaining
thresholds. -/
def notify_loop (flags : List Flag) (now : Nat × Nat) (percent_target : Int)
    (employee_code : String) : List Int → Option Int
  | [] => none
  | t :: ts =>
    if percent_target ≥ t then
      if t ≥ DEPT_NOTIFY_FORCE_THRESHOLD then some t
      else if already_notified_this_week flags now employee_code t then
        notify_loop flags now percent_target employee_code ts
      else some t
    else notify_loop flags now percent_target employee_code ts

/-- `should_notify(percent_target, employee_code)` (notification_utils.py
lines 53-64), against marker state `flags` at ISO week `now`. -/
def should_notify (flags : List Flag) (now : Nat × Nat) (percent_target : Int)
    (employee_code : String) : Option Int :=
  notify_loop flags now percent_target employee_code
    (NOTIFY_THRESHOLDS.insertionSort (fun a b => a ≤ b))

/-- `threshold = 100 if config['force_notify'] else should_notify(result.percent_target, employee.code)`
(division_compare_overtime.py lines 309-311). -/
def main_threshold (force_notify : Bool) (flags : List Flag) (now : Nat × Nat)
    (percent_target : Int) (employee_code : String) : Option Int :=
  if force_notify then some 100
  else should_notify flags now percent_target employee_code

/-- Python 3 `round` restricted to a quotient `p / q` of integers with
`q ≠ 0`: round half to even.  (Python computes the quotient in binary
floating point; this embedding computes it exactly, which agrees whenever
the floating-point quotient and the exact quotient round to the same
integer, as they do on every input considered below.) -/
def pyRound (p q : Int) : Int :=
  let pp := if q < 0 then -p else p
  let qq := if q < 0 then -q else q
  let f := Int.fdiv pp qq
  let r := pp - f * qq
  if 2 * r < qq then f
  else if 2 * r > qq then f + 1
  else if f % 2 = 0 then f else f + 1

/-- `calculate_percentage(numerator, denominator)`
(division_compare_overtime.py lines 229-232):
`0` when the denominator is `0`, else `round((numerator / denominator) * 100)`. -/
def calculate_percentage (numerator denominator : Int) : Int :=
  if denominator = 0 then 0
  else pyRound (numerator * 100) denominator

/-- `EmployeeInfo` (division_compare_overtime.py lines 46-57), the fields
used by the analysis. -/
structure EmployeeInfo where
  code : String
  key : String
  last_name : String
  first_name : String
  division_code : String
  email : String
  deriving DecidableEq, Repr

/-- `OvertimeResult` (division_compare_overtime.py lines 60-81). -/
structure OvertimeResult where
  employee : EmployeeInfo
  current_overtime : Int
  last_overtime : Int
  target_overtime : Int
  deriving DecidableEq, Repr

/-- `OvertimeResult.percent_vs_last`. -/
def OvertimeResult.percent_vs_last (r : OvertimeResult) : Int :=
  calculate_percentage r.current_overtime r.last_overtime

/-- `OvertimeResult.percent_target`. -/
def OvertimeResult.percent_target (r : OvertimeResult) : Int :=
  calculate_percentage r.current_overtime r.target_overtime

/-- `OvertimeResult.remaining_overtime`. -/
def OvertimeResult.remaining_overtime (r : OvertimeResult) : Int :=
  r.target_overtime - r.current_overtime

/-- `OvertimeResult.is_over_target`. -/
def OvertimeResult.is_over_target (r : OvertimeResult) : Bool :=
  r.current_overtime > r.target_overtime

/-- A threshold is admissible for `(flags, now, percent_target, code)` when
the `should_notify` loop would return it on reaching it: the percent has
crossed it, and it is at least `DEPT_NOTIFY_FORCE_THRESHOLD` or its marker
is not set for this employee this week. -/
def admissible (flags : List Flag) (now : Nat × Nat) (percent_target : Int)
    (employee_code : String) (t : Int) : Prop :=
  percent_target ≥ t ∧
    (t ≥ DEPT_NOTIFY_FORCE_THRESHOLD ∨
      already_notified_this_week flags now employee_code t = false)

instance (flags : List Flag) (now : Nat × Nat) (pct : Int) (code : String)
    (t : Int) : Decidable (admissible flags now pct code t) := by
  unfold admissible; infer_instance

lemma notify_loop_cons (flags : List Flag) (now : Nat × Nat) (pct : Int)
    (code : String) (a : Int) (tl : List Int) :
    notify_loop flags now pct code (a :: tl) =
      if pct ≥ a then
        if a ≥ DEPT_NOTIFY_FORCE_THRESHOLD then some a
        else if already_notified_this_week flags now code a then
          notify_loop flags now pct code tl
        else some a
      else notify_loop flags now pct code tl := rfl

lemma notify_loop_cons_skip (flags : List Flag) (now : Nat × Nat) (pct : Int)
    (code : String) (a : Int) (tl : List Int)
    (ha : ¬ admissible flags now pct code a) :
    notify_loop flags now pct code (a :: tl) =
      notify_loop flags now pct code tl := by
  rw [notify_loop_cons]
  by_cases hpa : pct ≥ a
  · by_cases hfa : a ≥ DEPT_NOTIFY_FORCE_THRESHOLD
    · exact absurd ⟨hpa, Or.inl hfa⟩ ha
    · have hn : already_notified_this_week flags now code a = true := by
        rcases Bool.eq_false_or_eq_true
          (already_notified_this_week flags now code a) with ht | hf
        · exact ht
        · exact absurd ⟨hpa, Or.inr hf⟩ ha
      simp [hpa, hfa, hn]
  · simp [hpa]

lemma notify_loop_eq_none (flags : List Flag) (now : Nat × Nat) (pct : Int)
    (code : String) : ∀ l : List Int,
    (∀ t ∈ l, ¬ admissible flags now pct code t) →
    notify_loop flags now pct code l = none := by
  intro l
  induction l with
  | nil => intro _; rfl
  | cons a tl ih =>
    intro h
    have ha := h a (by simp)
    have htl : ∀ t ∈ tl, ¬ admissible flags now pct code t := by
      intro t ht; exact h t (by simp [ht])
    rw [notify_loop_cons_skip flags now pct code a tl ha]
    exact ih htl

lemma notify_loop_first (flags : List Flag) (now : Nat × Nat) (pct : Int)
    (code : String) : ∀ l : List Int, l.Pairwise (· ≤ ·) →
    (∃ t ∈ l, admissible flags now pct code t) →
    ∃ t, notify_loop flags now pct code l = some t ∧ t ∈ l ∧
      admissible flags now pct code t ∧
      ∀ t' ∈ l, admissible flags now pct code t' → t ≤ t' := by
  intro l
  induction l with
  | nil => intro _ h; simp at h
  | cons a tl ih =>
    intro hpw hex
    have hpw' := List.pairwise_cons.mp hpw
    by_cases ha : admissible flags now pct code a
    · refine ⟨a, ?_, by simp, ha, ?_⟩
      · rcases ha with ⟨hpa, hrest⟩
        rw [notify_loop_cons]
        rcases hrest with hfa | hnn
        · simp [hpa, hfa]
        · by_cases hfa : a ≥ DEPT_NOTIFY_FORCE_THRESHOLD
          · simp [hpa, hfa]
          · simp [hpa, hfa, hnn]
      · intro t' ht' _
        rcases List.mem_cons.mp ht' with h | h
        · omega
        · exact hpw'.1 t' h
    · have hstep := notify_loop_cons_skip flags now pct code a tl ha
      have hex' : ∃ t ∈ tl, admissible flags now pct code t := by
        rcases hex with ⟨t, ht, hadm⟩
        rcases List.mem_cons.mp ht with h | h
        · exact absurd (h ▸ hadm) ha
        · exact ⟨t, h, hadm⟩
      rcases ih hpw'.2 hex' with ⟨t, heq, hmem, hadm, hmin⟩
      refine ⟨t, hstep ▸ heq, by simp [hmem], hadm, ?_⟩
      intro t' ht' hadm'
      rcases List.mem_cons.mp ht' with h | h
      · exact absurd (h ▸ hadm') ha
      · exact hmin t' h hadm'

lemma notify_loop_sound (flags : List Flag) (now : Nat × Nat) (pct : Int)
    (code : String) : ∀ l : List Int, ∀ t : Int,
    notify_loop flags now pct code l = some t →
    t ∈ l ∧ admissible flags now pct code t := by
  intro l
  induction l with
  | nil => intro t h; simp [notify_loop] at h
  | cons a tl ih =>
    intro t h
    rw [notify_loop_cons] at h
    by_cases hpa : pct ≥ a
    · by_cases hfa : a ≥ DEPT_NOTIFY_FORCE_THRESHOLD
      · simp [hpa, hfa] at h
        exact ⟨by simp [h], h ▸ ⟨hpa, Or.inl hfa⟩⟩
      · by_cases hn : already_notified_this_week flags now code a = true
        · simp [hpa, hfa, hn] at h
          rcases ih t h with ⟨hmem, hadm⟩
          exact ⟨by simp [hmem], hadm⟩
        · have hn' : already_notified_this_week flags now code a = false :=
            Bool.eq_false_iff.mpr hn
          simp [hpa, hfa, hn'] at h
          exact ⟨by simp [h], h ▸ ⟨hpa, Or.inr hn'⟩⟩
    · simp [hpa] at h
      rcases ih t h with ⟨hmem, hadm⟩
      exact ⟨by simp [hmem], hadm⟩

lemma sorted_thresholds_eq :
    NOTIFY_THRESHOLDS.insertionSort (fun a b => a ≤ b) =
      [60, 70, 80, 90, 100] := by decide

/-! ## The Slack delivery loop of `main` (division_compare_overtime.py 363-398)

`dept_email_mappings` is modelled as a total function `String → List String`
(`dept_email_mappings.get(d, [])`); `department_reports` as an association
list in insertion order (each department key occurs once, as in the Python
dict); the outcome of `notifier.send_message` as an oracle `ok : Nat → Bool`
indexed by the number of send attempts made so far in the run. -/

/-- `all_recipients = dept_email_mappings.get("ALL", [])` (line 368). -/
def all_recipients (mapping : String → List String) : List String :=
  mapping "ALL"

/-- The `user_reports` list built for one candidate address (lines 374-377):
all reports of the departments the address is mapped to, or every
department's reports when the address is in the `"ALL"` mapping. -/
def user_reports (mapping : String → List String)
    (department_reports : List (String × List String)) (email : String) :
    List String :=
  department_reports.foldl (fun acc dr =>
    if (mapping dr.1).contains email ||
        (all_recipients mapping).contains email then acc ++ dr.2 else acc) []

/-- Mutable state of the delivery loop: the `sent_to` set, the trace of
delivered messages (address, reports it contained), and the number of send
attempts made so far (the index into the `ok` oracle). -/
structure SendState where
  sent_to : List String
  delivered : List (String × List String)
  attempts : Nat
  deriving DecidableEq, Repr

/-- One iteration of `for email in recipients` (lines 372-396): skip when the
address is in `sent_to`; build `user_reports` and skip when it is empty; send,
and only on success record the delivery and add the address to `sent_to`. -/
def process_email (mapping : String → List String)
    (department_reports : List (String × List String)) (ok : Nat → Bool)
    (st : SendState) (email : String) : SendState :=
  if st.sent_to.contains email then st
  else
    let ur := user_reports mapping department_reports email
    if ur.isEmpty then st
    else if ok st.attempts then
      { sent_to := email :: st.sent_to,
        delivered := st.delivered ++ [(email, ur)],
        attempts := st.attempts + 1 }
    else { st with attempts := st.attempts + 1 }

/-- The full delivery loop `for dept, reports in department_reports.items()`
(lines 370-396): for each department, iterate over
`dept_email_mappings.get(dept, []) + all_recipients`. -/
def send_loop (mapping : String → List String)
    (department_reports : List (String × List String)) (ok : Nat → Bool) :
    SendState :=
  department_reports.foldl (fun st dr =>
    ((mapping dr.1) ++ all_recipients mapping).foldl
      (process_email mapping department_reports ok) st)
    ⟨[], [], 0⟩

/-- Number of messages delivered to `email` in state `st`. -/
def delivered_to (st : SendState) (email : String) : Nat :=
  (st.delivered.map Prod.fst).count email

/-- Loop invariant for one address: it is delivered to at most once, it is
delivered to exactly once iff it is in `sent_to`, and every message delivered
to it is its `user_reports` list. -/
def SendInv (mapping : String → List String)
    (department_reports : List (String × List String)) (email : String)
    (st : SendState) : Prop :=
  delivered_to st email ≤ 1 ∧
    (delivered_to st email = 1 ↔ st.sent_to.contains email = true) ∧
    ∀ p ∈ st.delivered, p.1 = email →
      p.2 = user_reports mapping department_reports email

lemma foldl_preserve {α σ : Type} (P : σ → Prop) (f : σ → α → σ)
    (h : ∀ s a, P s → P (f s a)) :
    ∀ (l : List α) (s : σ), P s → P (l.foldl f s) := by
  intro l
  induction l with
  | nil => intro s hs; exact hs
  | cons a tl ih => intro s hs; exact ih (f s a) (h s a hs)


lemma process_email_preserves_inv (mapping : String → List String)
    (department_reports : List (String × List String)) (ok : Nat → Bool)
    (email : String) (st : SendState) (e : String)
    (hinv : SendInv mapping department_reports email st) :
    SendInv mapping department_reports email
      (process_email mapping department_reports ok st e) := by
  rcases hinv with ⟨hle, hiff, hrep⟩
  unfold process_email
  by_cases hsent : st.sent_to.contains e = true
  · simp only [hsent, if_true]
    exact ⟨hle, hiff, hrep⟩
  · simp only [hsent, if_false, Bool.false_eq_true]
    by_cases hur : (user_reports mapping department_reports e).isEmpty = true
    · simp only [hur, if_true]
      exact ⟨hle, hiff, hrep⟩
    · simp only [hur, if_false, Bool.false_eq_true]
      by_cases hok : ok st.attempts = true
      · simp only [hok, if_true]
        by_cases he : e = email
        · subst he
          have hc0 : delivered_to st e = 0 := by
            rcases Nat.lt_or_ge (delivered_to st e) 1 with h | h
            · omega
            · exact absurd (hiff.mp (by omega)) hsent
          have hcount :
              delivered_to
                { sent_to := e :: st.sent_to,
                  delivered := st.delivered ++
                    [(e, user_reports mapping department_reports e)],
                  attempts := st.attempts + 1 } e = delivered_to st e + 1 := by
            simp [delivered_to, List.count_append]
          refine ⟨?_, ?_, ?_⟩
          · rw [hcount, hc0]
          · rw [hcount, hc0]
            simp [List.contains_cons]
          · intro p hp hpe
            rcases List.mem_append.mp hp with h | h
            · exact hrep p h hpe
            · have hpeq := List.mem_singleton.mp h
              subst hpeq
              rfl
        · have hcount :
              delivered_to
                { sent_to := e :: st.sent_to,
                  delivered := st.delivered ++
                    [(e, user_reports mapping department_reports e)],
                  attempts := st.attempts + 1 } email = delivered_to st email := by
            simp [delivered_to, List.count_append, List.count_cons]
            exact he
          refine ⟨?_, ?_, ?_⟩
          · rw [hcount]; exact hle
          constructor
          · intro h1
            have h2 := hiff.mp (hcount ▸ h1)
            simp at h2 ⊢
            exact Or.inr h2
          · intro h1
            simp [List.contains_cons] at h1
            rcases h1 with h | h
            · exact absurd h.symm he
            · exact hcount ▸ hiff.mpr (by simpa using h)
          · intro p hp hpe
            rcases List.mem_append.mp hp with h | h
            · exact hrep p h hpe
            · have hpeq := List.mem_singleton.mp h
              rw [hpeq] at hpe
              exact absurd hpe he
      · simp only [hok, if_false, Bool.false_eq_true]
        exact ⟨hle, hiff, hrep⟩

lemma process_email_count_mono (mapping : String → List String)
    (department_reports : List (String × List String)) (ok : Nat → Bool)
    (email : String) (st : SendState) (e : String) :
    delivered_to st email ≤
      delivered_to (process_email mapping department_reports ok st e) email := by
  unfold process_email
  by_cases hsent : st.sent_to.contains e = true
  · simp only [hsent, if_true]
    exact Nat.le_refl _
  · simp only [hsent, if_false, Bool.false_eq_true]
    by_cases hur : (user_reports mapping department_reports e).isEmpty = true
    · simp only [hur, if_true]
      exact Nat.le_refl _
    · simp only [hur, if_false, Bool.false_eq_true]
      by_cases hok : ok st.attempts = true
      · simp only [hok, if_true]
        simp [delivered_to, List.count_append]
      · simp only [hok, if_false, Bool.false_eq_true]
        exact Nat.le_refl _

lemma process_email_delivers (mapping : String → List String)
    (department_reports : List (String × List String)) (ok : Nat → Bool)
    (email : String) (st : SendState)
    (hinv : SendInv mapping department_reports email st)
    (hok : ∀ n, ok n = true)
    (hur : (user_reports mapping department_reports email).isEmpty = false) :
    SendInv mapping department_reports email
      (process_email mapping department_reports ok st email) ∧
    delivered_to (process_email mapping department_reports ok st email)
      email = 1 := by
  refine ⟨process_email_preserves_inv mapping department_reports ok email st
    email hinv, ?_⟩
  unfold process_email
  by_cases hsent : st.sent_to.contains email = true
  · simp only [hsent, if_true]
    exact hinv.2.1.mpr hsent
  · simp only [hsent, if_false, Bool.false_eq_true, hur, hok st.attempts,
      if_true]
    have hc0 : delivered_to st email = 0 := by
      have hle1 := hinv.1
      rcases Nat.lt_or_ge (delivered_to st email) 1 with h | h
      · omega
      · exact absurd (hinv.2.1.mp (by omega)) hsent
    simp [delivered_to, List.count_append] at hc0 ⊢
    simp [hc0]

lemma process_email_preserves_one (mapping : String → List String)
    (department_reports : List (String × List String)) (ok : Nat → Bool)
    (email : String) (st : SendState) (e : String)
    (h : SendInv mapping department_reports email st ∧
      delivered_to st email = 1) :
    SendInv mapping department_reports email
      (process_email mapping department_reports ok st e) ∧
    delivered_to (process_email mapping department_reports ok st e)
      email = 1 := by
  have hinv := process_email_preserves_inv mapping department_reports ok email
    st e h.1
  have hmono := process_email_count_mono mapping department_reports ok email
    st e
  have hle := hinv.1
  have h2 := h.2
  refine ⟨hinv, Nat.le_antisymm hle ?_⟩
  rw [h2] at hmono
  exact hmono

lemma foldl_process_delivers (mapping : String → List String)
    (department_reports : List (String × List String)) (ok : Nat → Bool)
    (email : String)
    (hok : ∀ n, ok n = true)
    (hur : (user_reports mapping department_reports email).isEmpty = false)
    (l : List String) (hmem : email ∈ l) (st : SendState)
    (hinv : SendInv mapping department_reports email st) :
    SendInv mapping department_reports email
      (l.foldl (process_email mapping department_reports ok) st) ∧
    delivered_to (l.foldl (process_email mapping department_reports ok) st)
      email = 1 := by
  rcases List.append_of_mem hmem with ⟨l1, l2, rfl⟩
  rw [List.foldl_append, List.foldl_cons]
  have h1 : SendInv mapping department_reports email
      (l1.foldl (process_email mapping department_reports ok) st) :=
    foldl_preserve (SendInv mapping department_reports email) _
      (fun s a hs =>
        process_email_preserves_inv mapping department_reports ok email s a hs)
      l1 st hinv
  have h2 := process_email_delivers mapping department_reports ok email _ h1
    hok hur
  exact foldl_preserve
    (fun s => SendInv mapping department_reports email s ∧
      delivered_to s email = 1) _
    (fun s a hs =>
      process_email_preserves_one mapping department_reports ok email s a hs)
    l2 _ h2

lemma user_reports_foldl_of_all (mapping : String → List String)
    (email : String)
    (hall : (all_recipients mapping).contains email = true) :
    ∀ (l : List (String × List String)) (acc : List String),
    l.foldl (fun acc dr =>
      if (mapping dr.1).contains email ||
          (all_recipients mapping).contains email then acc ++ dr.2 else acc)
      acc = acc ++ (l.map Prod.snd).flatten := by
  intro l
  induction l with
  | nil => intro acc; simp
  | cons a tl ih =>
    intro acc
    have hcond : ((mapping a.1).contains email ||
        (all_recipients mapping).contains email) = true := by
      rw [hall, Bool.or_true]
    rw [List.foldl_cons, if_pos hcond, ih (acc ++ a.2)]
    simp

/-- When the address is in the `"ALL"` mapping, its `user_reports` is the
concatenation of every department's reports, each department taken once. -/
lemma user_reports_of_all (mapping : String → List String)
    (department_reports : List (String × List String)) (email : String)
    (hall : (all_recipients mapping).contains email = true) :
    user_reports mapping department_reports email =
      (department_reports.map Prod.snd).flatten := by
  unfold user_reports
  rw [user_reports_foldl_of_all mapping email hall department_reports []]
  simp

lemma send_loop_inv (mapping : String → List String)
    (department_reports : List (String × List String)) (ok : Nat → Bool)
    (email : String) :
    SendInv mapping department_reports email
      (send_loop mapping department_reports ok) := by
  unfold send_loop
  refine foldl_preserve (SendInv mapping department_reports email) _
    ?_ department_reports ⟨[], [], 0⟩ ?_
  · intro s a hs
    exact foldl_preserve (SendInv mapping department_reports email) _
      (fun s' a' hs' =>
        process_email_preserves_inv mapping department_reports ok email s' a'
          hs')
      _ s hs
  · refine ⟨by simp [delivered_to], ?_, by simp⟩
    simp [delivered_to]

lemma send_loop_delivers (mapping : String → List String)
    (department_reports : List (String × List String)) (ok : Nat → Bool)
    (email : String)
    (hok : ∀ n, ok n = true)
    (hall : (all_recipients mapping).contains email = true)
    (hne : department_reports ≠ [])
    (hur : (user_reports mapping department_reports email).isEmpty = false) :
    SendInv mapping department_reports email
      (send_loop mapping department_reports ok) ∧
    delivered_to (send_loop mapping department_reports ok) email = 1 := by
  unfold send_loop
  rcases department_reports with _ | ⟨d1, rest⟩
  · exact absurd rfl hne
  rw [List.foldl_cons]
  have hinit : SendInv mapping (d1 :: rest) email ⟨[], [], 0⟩ := by
    refine ⟨by simp [delivered_to], ?_, by simp⟩
    simp [delivered_to]
  have hmem1 : email ∈ mapping d1.1 ++ all_recipients mapping :=
    List.mem_append.mpr (Or.inr (by simpa using hall))
  have hfirst := foldl_process_delivers mapping (d1 :: rest) ok email hok hur
    (mapping d1.1 ++ all_recipients mapping) hmem1 ⟨[], [], 0⟩ hinit
  exact foldl_preserve
    (fun s => SendInv mapping (d1 :: rest) email s ∧
      delivered_to s email = 1) _
    (fun s a hs =>
      foldl_preserve
        (fun s' => SendInv mapping (d1 :: rest) email s' ∧
          delivered_to s' email = 1) _
        (fun s' a' hs' =>
          process_email_preserves_one mapping (d1 :: rest) ok email s' a' hs')
        _ s hs)
    rest _ hfirst

/-! ## Claims -/

/-- C1, counterexample: with no markers and percent 70, the highest crossed
threshold is 70, but `should_notify` returns 60, the first (lowest) crossed
threshold reached when iterating from lowest to highest.  The claim that the
decider selects the highest crossed threshold is therefore false. -/
theorem c1_counterexample :
    should_notify [] (2025, 41) 70 "A" = some 60 ∧
      ¬ should_notify [] (2025, 41) 70 "A" = some 70 := by decide

/-- C1, amended: evaluation proceeds from lowest to highest and selects the
**lowest** admissible threshold (crossed, and either at least the force
threshold 95 or not yet notified this week) — the first one reached — not
the highest crossed one. -/
theorem c1_lowest_admissible (flags : List Flag) (now : Nat × Nat) (pct : Int)
    (code : String)
    (h : ∃ t ∈ NOTIFY_THRESHOLDS, admissible flags now pct code t) :
    ∃ t, should_notify flags now pct code = some t ∧ t ∈ NOTIFY_THRESHOLDS ∧
      admissible flags now pct code t ∧
      ∀ t' ∈ NOTIFY_THRESHOLDS, admissible flags now pct code t' → t ≤ t' := by
  unfold should_notify
  rw [sorted_thresholds_eq]
  have hL : NOTIFY_THRESHOLDS = [60, 70, 80, 90, 100] := rfl
  rw [hL] at h ⊢
  exact notify_loop_first flags now pct code [60, 70, 80, 90, 100]
    (by decide) h

/-- C1, witness at `pct = 70`, empty marker state. -/
theorem c1_witness :
    ∃ t, should_notify [] (2025, 41) 70 "A" = some t ∧
      t ∈ NOTIFY_THRESHOLDS ∧ admissible [] (2025, 41) 70 "A" t ∧
      ∀ t' ∈ NOTIFY_THRESHOLDS, admissible [] (2025, 41) 70 "A" t' → t ≤ t' :=
  c1_lowest_admissible [] (2025, 41) 70 "A" (by decide)

/-- C2, counterexample: the spec scenario itself.  Percent 96 is at or above
the critical threshold 95, `forceAll` is false, and markers for 60, 70, 80
and 90 are set for employee `"E"` this week — yet `should_notify` returns
`none`, because the bypass in the code compares the *threshold* (only 100 is
at least 95) with `DEPT_NOTIFY_FORCE_THRESHOLD`, not the percent. -/
theorem c2_counterexample :
    should_notify
      [⟨"E", 2025, 41, 60, some (2025, 41)⟩,
       ⟨"E", 2025, 41, 70, some (2025, 41)⟩,
       ⟨"E", 2025, 41, 80, some (2025, 41)⟩,
       ⟨"E", 2025, 41, 90, some (2025, 41)⟩] (2025, 41) 96 "E" = none := by
  decide

/-- C2, amended: the bypass is per-threshold — a threshold at or above 95
(that is, only 100) ignores the dedup markers.  Hence for every marker state
the decider returns a threshold on every call when the percent is at least
100; for `95 ≤ percent < 100` with markers already set for 60–90 it returns
`none`. -/
theorem c2_critical_bypass_amended (flags : List Flag) (now : Nat × Nat)
    (pct : Int) (code : String) (h : pct ≥ 100) :
    ∃ t, should_notify flags now pct code = some t := by
  unfold should_notify
  rw [sorted_thresholds_eq]
  have hadm : admissible flags now pct code 100 :=
    ⟨h, Or.inl (by decide)⟩
  rcases notify_loop_first flags now pct code [60, 70, 80, 90, 100]
    (by decide) ⟨100, by decide, hadm⟩ with ⟨t, heq, _⟩
  exact ⟨t, heq⟩

/-- C2, witness: percent 100 with markers 60–90 (and even 100) set still
yields a threshold. -/
theorem c2_witness :
    (100 : Int) ≥ 100 ∧
    ∃ t, should_notify
      [⟨"E", 2025, 41, 60, some (2025, 41)⟩,
       ⟨"E", 2025, 41, 70, some (2025, 41)⟩,
       ⟨"E", 2025, 41, 80, some (2025, 41)⟩,
       ⟨"E", 2025, 41, 90, some (2025, 41)⟩,
       ⟨"E", 2025, 41, 100, some (2025, 41)⟩] (2025, 41) 100 "E" = some t :=
  ⟨by decide,
   c2_critical_bypass_amended
     [⟨"E", 2025, 41, 60, some (2025, 41)⟩,
      ⟨"E", 2025, 41, 70, some (2025, 41)⟩,
      ⟨"E", 2025, 41, 80, some (2025, 41)⟩,
      ⟨"E", 2025, 41, 90, some (2025, 41)⟩,
      ⟨"E", 2025, 41, 100, some (2025, 41)⟩] (2025, 41) 100 "E" (by decide)⟩

/-- C3: once the marker for a non-critical threshold `T ∈ {60,70,80,90}` is
set for an employee in the current ISO week, `should_notify` never returns
`T` again for that employee in that week — at any percent, in fact, so in
particular at the same or a lower one. -/
theorem c3_no_repeat_within_week (flags : List Flag) (now : Nat × Nat)
    (pct : Int) (code : String) (T : Int)
    (hT : T ∈ [(60 : Int), 70, 80, 90])
    (hset : already_notified_this_week flags now code T = true) :
    should_notify flags now pct code ≠ some T := by
  intro heq
  unfold should_notify at heq
  rw [sorted_thresholds_eq] at heq
  rcases notify_loop_sound flags now pct code _ T heq with ⟨_, _, hforce | hnn⟩
  · have hT95 : T < DEPT_NOTIFY_FORCE_THRESHOLD := by
      simp at hT
      rcases hT with rfl | rfl | rfl | rfl <;> decide
    omega
  · rw [hset] at hnn
    exact Bool.noConfusion hnn

/-- C3, witness: marker for 60 set this week; the decider does not return 60
again at percent 60. -/
theorem c3_witness :
    (60 : Int) ∈ [(60 : Int), 70, 80, 90] ∧
    already_notified_this_week [⟨"E", 2025, 41, 60, some (2025, 41)⟩]
      (2025, 41) "E" 60 = true ∧
    should_notify [⟨"E", 2025, 41, 60, some (2025, 41)⟩] (2025, 41) 60 "E" ≠
      some 60 :=
  ⟨by decide, by decide,
   c3_no_repeat_within_week [⟨"E", 2025, 41, 60, some (2025, 41)⟩] (2025, 41)
     60 "E" 60 (by decide) (by decide)⟩

/-- C4: when `force_notify` is true, the decision taken in `main` is the
maximum threshold 100, for every percent value and every marker state. -/
theorem c4_force_notify_max (flags : List Flag) (now : Nat × Nat) (pct : Int)
    (code : String) :
    main_threshold true flags now pct code = some 100 := rfl

/-- C5, counterexample: a marker whose stored date cannot be parsed
(`content = none`) is *not* deleted by `cleanup_old_flags` — the code logs a
warning and `continue`s, keeping the file — so the claim that it is deleted
is false. -/
theorem c5_counterexample :
    cleanup_old_flags [⟨"E", 2024, 1, 60, none⟩] (2025, 41) =
      [⟨"E", 2024, 1, 60, none⟩] := by decide

/-- C5, amended: during pruning, every marker whose stored date cannot be
parsed is treated as corrupt and *kept* with a warning, not deleted and not
a fatal error; pruning of the remaining (parseable) markers continues and
deletes exactly those from a different ISO (year, week). -/
theorem c5_corrupt_kept_pruning_continues (flags : List Flag)
    (now : Nat × Nat) :
    (∀ fl ∈ flags, fl.content = none → fl ∈ cleanup_old_flags flags now) ∧
    (∀ fl ∈ flags, ∀ y w : Nat, fl.content = some (y, w) →
      (fl ∈ cleanup_old_flags flags now ↔ (y = now.1 ∧ w = now.2))) := by
  constructor
  · intro fl hfl hnone
    exact List.mem_filter.mpr ⟨hfl, by simp [hnone]⟩
  · intro fl hfl y w hsome
    constructor
    · intro hmem
      have hp := (List.mem_filter.mp hmem).2
      rw [hsome] at hp
      simpa using hp
    · intro hyw
      refine List.mem_filter.mpr ⟨hfl, ?_⟩
      rw [hsome]
      simp [hyw.1, hyw.2]

/-- C5, witness: one corrupt marker and one stale marker; the corrupt one
survives pruning and the stale one does not. -/
theorem c5_witness :
    (⟨"E", 2024, 1, 60, none⟩ : Flag) ∈
      cleanup_old_flags [⟨"E", 2024, 1, 60, none⟩,
        ⟨"F", 2025, 40, 70, some (2025, 40)⟩] (2025, 41) ∧
    ¬ (⟨"F", 2025, 40, 70, some (2025, 40)⟩ : Flag) ∈
      cleanup_old_flags [⟨"E", 2024, 1, 60, none⟩,
        ⟨"F", 2025, 40, 70, some (2025, 40)⟩] (2025, 41) :=
  ⟨(c5_corrupt_kept_pruning_continues
      [⟨"E", 2024, 1, 60, none⟩, ⟨"F", 2025, 40, 70, some (2025, 40)⟩]
      (2025, 41)).1 ⟨"E", 2024, 1, 60, none⟩ (by decide) rfl,
   fun hmem =>
     by
       have h := ((c5_corrupt_kept_pruning_continues
         [⟨"E", 2024, 1, 60, none⟩, ⟨"F", 2025, 40, 70, some (2025, 40)⟩]
         (2025, 41)).2 ⟨"F", 2025, 40, 70, some (2025, 40)⟩ (by decide)
         2025 40 rfl).mp hmem
       exact absurd h.2 (by decide)⟩

/-- C6: pruning is selective and idempotent — a parseable marker from the
current ISO (year, week) survives, a parseable marker differing in either
component is deleted, and pruning a second time changes nothing. -/
theorem c6_prune_selective_idempotent (flags : List Flag) (now : Nat × Nat) :
    (∀ fl ∈ flags, fl.content = some (now.1, now.2) →
      fl ∈ cleanup_old_flags flags now) ∧
    (∀ fl : Flag, ∀ y w : Nat, fl.content = some (y, w) →
      (y ≠ now.1 ∨ w ≠ now.2) → fl ∉ cleanup_old_flags flags now) ∧
    cleanup_old_flags (cleanup_old_flags flags now) now =
      cleanup_old_flags flags now := by
  refine ⟨?_, ?_, ?_⟩
  · intro fl hfl hcur
    exact List.mem_filter.mpr ⟨hfl, by simp [hcur]⟩
  · intro fl y w hsome hne hmem
    have hp := (List.mem_filter.mp hmem).2
    rw [hsome] at hp
    simp at hp
    rcases hne with h | h
    · exact h hp.1
    · exact h hp.2
  · apply List.filter_eq_self.mpr
    intro a ha
    exact (List.mem_filter.mp ha).2

/-- C6, witness: a current-week marker, a last-week marker and a last-year
marker; only the current one survives, and a second prune is a no-op. -/
theorem c6_witness :
    (⟨"E", 2025, 41, 60, some (2025, 41)⟩ : Flag) ∈
      cleanup_old_flags [⟨"E", 2025, 41, 60, some (2025, 41)⟩,
        ⟨"E", 2025, 40, 60, some (2025, 40)⟩,
        ⟨"E", 2024, 41, 60, some (2024, 41)⟩] (2025, 41) ∧
    (⟨"E", 2025, 40, 60, some (2025, 40)⟩ : Flag) ∉
      cleanup_old_flags [⟨"E", 2025, 41, 60, some (2025, 41)⟩,
        ⟨"E", 2025, 40, 60, some (2025, 40)⟩,
        ⟨"E", 2024, 41, 60, some (2024, 41)⟩] (2025, 41) ∧
    cleanup_old_flags (cleanup_old_flags
        [⟨"E", 2025, 41, 60, some (2025, 41)⟩,
         ⟨"E", 2025, 40, 60, some (2025, 40)⟩,
         ⟨"E", 2024, 41, 60, some (2024, 41)⟩] (2025, 41)) (2025, 41) =
      cleanup_old_flags [⟨"E", 2025, 41, 60, some (2025, 41)⟩,
        ⟨"E", 2025, 40, 60, some (2025, 40)⟩,
        ⟨"E", 2024, 41, 60, some (2024, 41)⟩] (2025, 41) :=
  ⟨(c6_prune_selective_idempotent
      [⟨"E", 2025, 41, 60, some (2025, 41)⟩,
       ⟨"E", 2025, 40, 60, some (2025, 40)⟩,
       ⟨"E", 2024, 41, 60, some (2024, 41)⟩] (2025, 41)).1
     ⟨"E", 2025, 41, 60, some (2025, 41)⟩ (by decide) rfl,
   (c6_prune_selective_idempotent
      [⟨"E", 2025, 41, 60, some (2025, 41)⟩,
       ⟨"E", 2025, 40, 60, some (2025, 40)⟩,
       ⟨"E", 2024, 41, 60, some (2024, 41)⟩] (2025, 41)).2.1
     ⟨"E", 2025, 40, 60, some (2025, 40)⟩ 2025 40 rfl (by decide),
   (c6_prune_selective_idempotent
      [⟨"E", 2025, 41, 60, some (2025, 41)⟩,
       ⟨"E", 2025, 40, 60, some (2025, 40)⟩,
       ⟨"E", 2024, 41, 60, some (2024, 41)⟩] (2025, 41)).2.2⟩

/-- C7: in every run, each address is delivered to at most once; and when
every send succeeds, the address is reachable both through a
division-specific mapping and through the `"ALL"` mapping, and a routed
employee's report occurs exactly once across the department reports, then
exactly one message is delivered to the address and it contains that report
exactly once. -/
theorem c7_recipient_dedup (mapping : String → List String)
    (department_reports : List (String × List String)) (ok : Nat → Bool)
    (email : String) :
    delivered_to (send_loop mapping department_reports ok) email ≤ 1 ∧
    (∀ rep : String, (∀ n, ok n = true) →
      (all_recipients mapping).contains email = true →
      (∃ d ∈ department_reports.map Prod.fst,
        (mapping d).contains email = true) →
      (department_reports.map Prod.snd).flatten.count rep = 1 →
      delivered_to (send_loop mapping department_reports ok) email = 1 ∧
      ∀ p ∈ (send_loop mapping department_reports ok).delivered,
        p.1 = email → p.2.count rep = 1) := by
  refine ⟨(send_loop_inv mapping department_reports ok email).1, ?_⟩
  intro rep hok hall hdiv hrep
  have hur_eq := user_reports_of_all mapping department_reports email hall
  have hne : department_reports ≠ [] := by
    intro hnil
    rw [hnil] at hrep
    simp at hrep
  have hur : (user_reports mapping department_reports email).isEmpty =
      false := by
    rw [hur_eq]
    cases hfl : (department_reports.map Prod.snd).flatten with
    | nil => rw [hfl] at hrep; simp at hrep
    | cons x xs => rfl
  rcases send_loop_delivers mapping department_reports ok email hok hall hne
    hur with ⟨hinv, hcount⟩
  refine ⟨hcount, ?_⟩
  intro p hp hpe
  rw [hinv.2.2 p hp hpe, hur_eq]
  exact hrep

/-- C7, witness: division `"D1"` maps to the same address as `"ALL"`; one
report routed; the address gets exactly one message containing the report
exactly once. -/
theorem c7_witness :
    delivered_to (send_loop
      (fun d => if d = "ALL" then ["boss@x"]
        else if d = "D1" then ["boss@x"] else [])
      [("D1", ["report1"])] (fun _ => true)) "boss@x" ≤ 1 ∧
    delivered_to (send_loop
      (fun d => if d = "ALL" then ["boss@x"]
        else if d = "D1" then ["boss@x"] else [])
      [("D1", ["report1"])] (fun _ => true)) "boss@x" = 1 ∧
    ∀ p ∈ (send_loop
      (fun d => if d = "ALL" then ["boss@x"]
        else if d = "D1" then ["boss@x"] else [])
      [("D1", ["report1"])] (fun _ => true)).delivered,
      p.1 = "boss@x" → p.2.count "report1" = 1 := by
  have h := c7_recipient_dedup
    (fun d => if d = "ALL" then ["boss@x"]
      else if d = "D1" then ["boss@x"] else [])
    [("D1", ["report1"])] (fun _ => true) "boss@x"
  have h2 := h.2 "report1" (fun _ => rfl) (by decide)
    ⟨"D1", by decide, by decide⟩ (by decide)
  exact ⟨h.1, h2.1, h2.2⟩

/-- C8, counterexample: with target 600 and current 660 minutes,
`percent_target` is 110, the run is over target with remaining −60 — but on
the first run of the week (no markers) the decider returns 60, the lowest
crossed threshold, not 100 as the claim states. -/
theorem c8_counterexample :
    OvertimeResult.percent_target
      ⟨⟨"E1", "k1", "Yama", "Taro", "D1", "e1@x"⟩, 660, 0, 600⟩ = 110 ∧
    OvertimeResult.is_over_target
      ⟨⟨"E1", "k1", "Yama", "Taro", "D1", "e1@x"⟩, 660, 0, 600⟩ = true ∧
    OvertimeResult.remaining_overtime
      ⟨⟨"E1", "k1", "Yama", "Taro", "D1", "e1@x"⟩, 660, 0, 600⟩ = -60 ∧
    should_notify [] (2025, 41) 110 "E1" = some 60 ∧
    ¬ should_notify [] (2025, 41) 110 "E1" = some 100 := by decide

/-- C8, amended: target 600, current 660 ⇒ percent-target 110, over-target,
remaining −60; the decider returns 60 on the first run of the week (the
lowest unnotified crossed threshold), and on a same-week re-run at percent 90
— after the returned threshold 60 has been marked — it returns 70, the next
unnotified crossed threshold, rather than nothing. -/
theorem c8_scenario_amended :
    OvertimeResult.percent_target
      ⟨⟨"E1", "k1", "Yama", "Taro", "D1", "e1@x"⟩, 660, 0, 600⟩ = 110 ∧
    OvertimeResult.is_over_target
      ⟨⟨"E1", "k1", "Yama", "Taro", "D1", "e1@x"⟩, 660, 0, 600⟩ = true ∧
    OvertimeResult.remaining_overtime
      ⟨⟨"E1", "k1", "Yama", "Taro", "D1", "e1@x"⟩, 660, 0, 600⟩ = -60 ∧
    should_notify [] (2025, 41) 110 "E1" = some 60 ∧
    should_notify (set_notified_flag_today [] (2025, 41) "E1" 60) (2025, 41)
      90 "E1" = some 70 := by decide

/-- C9, counterexample: target 600, current 300, previous 0 ⇒
percent-vs-previous 0 (zero-denominator rule) and percent-target 50, but the
decider returns `none` on the first evaluation — 50 is below the lowest
threshold 60 — not 50 as the claim states. -/
theorem c9_counterexample :
    OvertimeResult.percent_vs_last
      ⟨⟨"E2", "k2", "Kawa", "Hana", "D2", "e2@x"⟩, 300, 0, 600⟩ = 0 ∧
    OvertimeResult.percent_target
      ⟨⟨"E2", "k2", "Kawa", "Hana", "D2", "e2@x"⟩, 300, 0, 600⟩ = 50 ∧
    should_notify [] (2025, 41) 50 "E2" = none ∧
    ¬ should_notify [] (2025, 41) 50 "E2" = some 50 := by decide

/-- C9, amended: target 600, current 300, previous 0 ⇒ percent-vs-previous 0
and percent-target 50, and the decider returns `none` (no threshold) on the
first evaluation this week, because 50 is below every notify threshold. -/
theorem c9_scenario_amended :
    OvertimeResult.percent_vs_last
      ⟨⟨"E2", "k2", "Kawa", "Hana", "D2", "e2@x"⟩, 300, 0, 600⟩ = 0 ∧
    OvertimeResult.percent_target
      ⟨⟨"E2", "k2", "Kawa", "Hana", "D2", "e2@x"⟩, 300, 0, 600⟩ = 50 ∧
    should_notify [] (2025, 41) 50 "E2" = none ∧
    ∀ t ∈ NOTIFY_THRESHOLDS, (50 : Int) < t := by decide

/-- C10: `should_notify` returns `none` or an element of
`NOTIFY_THRESHOLDS = {60,70,80,90,100}` that the percent has crossed; for
every percent below 60 it returns `none` regardless of marker state. -/
theorem c10_range_sound (flags : List Flag) (now : Nat × Nat) (pct : Int)
    (code : String) :
    (∀ t : Int, should_notify flags now pct code = some t →
      t ∈ NOTIFY_THRESHOLDS ∧ t ≤ pct) ∧
    (pct < 60 → should_notify flags now pct code = none) := by
  constructor
  · intro t h
    unfold should_notify at h
    rw [sorted_thresholds_eq] at h
    rcases notify_loop_sound flags now pct code _ t h with ⟨hmem, hadm⟩
    exact ⟨hmem, hadm.1⟩
  · intro hlt
    unfold should_notify
    rw [sorted_thresholds_eq]
    apply notify_loop_eq_none
    intro t ht hadm
    have hpt := hadm.1
    simp at ht
    rcases ht with rfl | rfl | rfl | rfl | rfl <;> omega

/-- C10, witness: percent 59 yields `none`, and the sound-range part applied
to a run that does return a threshold. -/
theorem c10_witness :
    should_notify [] (2025, 41) 59 "A" = none :=
  (c10_range_sound [] (2025, 41) 59 "A").2 (by decide)

end DivisionOvertime
